import Mathlib

/-!
# Verification of the `faust2sc.py` pipeline

This file gives a shallow embedding, in Lean 4, of the pure core of
`faust2sc.py` (a build/codegen glue tool that turns a Faust DSP file into
SuperCollider plugin artifacts), together with theorems settling the
specification claims about it.

Modelling conventions:
* Python strings are modelled as `List Char`; string literals are written
  as `"...".data`.  Brace characters inside literals are written with the
  `\x7b` / `\x7d` escapes (same characters, escaped spelling).
* JSON numeric fields that are only ever formatted with `%s` (`min`, `max`,
  `init` of a UI element) are modelled by their rendered text
  (`Option (List Char)`, `none` = key absent).  Channel counts (`inputs`,
  `outputs`) are modelled as `Nat` and rendered with `Nat.repr`, matching
  Python's `str` on non-negative integers.
* `sys.exit(message)` is modelled as `Except.error` carrying an `ExitMsg`
  with exit code 1 (Python's `sys.exit` with a string argument prints the
  message and exits with status 1).
* Filesystem and subprocess effects are abstracted into explicit
  parameters: the result of `os.path` existence checks is a `Bool` or a
  lookup function, and exit statuses of external commands are `Nat`
  parameters.  `os.system`'s return value is ignored by the source, so the
  corresponding parameters are (deliberately) unused in `compile`.
* `print` calls and file writes are not modelled (pure output effects).
-/

/-! ## Generic substring machinery -/

/-- Number of positions of `s` at which `pat` occurs as a contiguous
substring (positions may in principle overlap; the patterns used below
have no self-overlap, so this is the plain occurrence count). -/
def countSub (pat : List Char) : List Char → Nat
  | [] => 0
  | c :: rest => (if pat.isPrefixOf (c :: rest) then 1 else 0) + countSub pat rest

/-- `pat` occurs somewhere in `s` as a contiguous substring. -/
def hasSub (pat s : List Char) : Prop := ∃ l r, s = l ++ pat ++ r

/-- No nonempty proper suffix of `pat` is also a prefix of `pat`. -/
def noSelfOverlap (pat : List Char) : Prop :=
  ∀ i < pat.length, 0 < i → ¬ ((pat.drop i).isPrefixOf pat = true)

instance (pat : List Char) : Decidable (noSelfOverlap pat) := by
  unfold noSelfOverlap
  infer_instance

/-! ## Data model

The JSON metadata produced by the `faust` compiler, as read by the script:
a name, channel counts, and a UI section that is a list of groups, each
group possibly carrying an `items` list of UI control descriptors.  The
script reads `meta` sub-dictionaries through `ChainMap`, modelled by
`chainLookup` (first list entry in which the key is present wins). -/

/-- One dictionary of a UI element's `meta` list (only the key the script
reads is modelled). -/
structure UIMeta where
  tooltip : Option (List Char)
deriving DecidableEq

/-- One UI control descriptor (`ui[..]["items"][..]` in the JSON). -/
structure UIItem where
  label : Option (List Char)
  min : Option (List Char)
  max : Option (List Char)
  init : Option (List Char)
  meta : Option (List UIMeta)
deriving DecidableEq

/-- One entry of the JSON `ui` list. -/
structure UIGroup where
  items : Option (List UIItem)
deriving DecidableEq

/-- The JSON metadata record, restricted to the fields the script uses. -/
structure JsonData where
  name : List Char
  inputs : Nat
  outputs : Nat
  ui : List UIGroup
deriving DecidableEq

/-- `ChainMap(*list)[key]`: first element of the list in which the lookup
succeeds (`flatten_list_of_dicts` in the source). -/
def chainLookup {α β : Type} (f : α → Option β) : List α → Option β
  | [] => none
  | d :: ds =>
    match f d with
    | some v => some v
    | none => chainLookup f ds

/-- `flatten_list_of_dicts(json_data["ui"])["items"]` (raises `KeyError`,
i.e. `none`, when no entry has the key). -/
def uiItems (ui : List UIGroup) : Option (List UIItem) :=
  chainLookup UIGroup.items ui

/-- Tooltip lookup through `flatten_list_of_dicts(ui_element["meta"])`. -/
def tooltipOf (meta : List UIMeta) : Option (List Char) :=
  chainLookup UIMeta.tooltip meta

/-! ## Class-name derivation (`sanitize_label`, `normalizeClassName`,
`dsp_name`, `get_class_name`) -/

/-- The characters removed by `sanitize_label` (`"\\-_/([^)]*)"`). -/
def removeChars : List Char := "\\-_/([^)]*)".data

/-- `sanitize_label`: successively `replace(char, "")` for each character
of `removeChars`, then `.lower()`. -/
def sanitize_label (label : List Char) : List Char :=
  (removeChars.foldl (fun l ch => l.filter (fun c => c ≠ ch)) label).map Char.toLower

/-- The separator test of `normalizeClassName`
(`char == "_" or char == "-" or char == " "`). -/
def isSepChar (c : Char) : Bool :=
  c == '_' || c == '-' || c == ' '

/-- The character loop of `normalizeClassName`: the Boolean is the
`upnext` flag (initially `True`).  When `upnext` is set the character is
appended uppercased (even if it is itself a separator) and the flag is
cleared; otherwise separators set the flag and are dropped, and other
characters are kept. -/
def normalizeLoop : Bool → List Char → List Char
  | _, [] => []
  | true, c :: cs => c.toUpper :: normalizeLoop false cs
  | false, c :: cs =>
    if isSepChar c then normalizeLoop true cs
    else c :: normalizeLoop false cs

/-- `normalizeClassName`: run the loop, then `normalized[0:maxlen-1]` with
`maxlen = 31` (i.e. the first 30 characters). -/
def normalizeClassName (meta_name : List Char) : List Char :=
  let maxlen := 31
  (normalizeLoop true meta_name).take (maxlen - 1)

/-- `dsp_name`. -/
def dsp_name (json_data : JsonData) : List Char :=
  normalizeClassName json_data.name

/-- `get_class_name`: optional `"Faust"` prefix (added unless
`noprefix == 1`), then `name[0:30]` whenever `len(name) > 31`. -/
def get_class_name (json_data : JsonData) ( noprefix : Nat) : List Char :=
  let name := dsp_name json_data
  let name := if noprefix ≠ 1 then "Faust".data ++ name else name
  if 31 < name.length then name.take 30 else name

/-! ## Help-file argument renderer (`get_help_file_arguments`) -/

/-- The `ARGUMENT::` block rendered for one UI element inside the loop of
`get_help_file_arguments`. -/
def helpArg (ui_element : UIItem) : List Char :=
  let param_name :=
    match ui_element.label with
    | some l => sanitize_label l
    | none => []
  let param_min :=
    match ui_element.min with
    | some m => m
    | none => []
  let param_max :=
    match ui_element.max with
    | some m => m
    | none => []
  let this_argument := "ARGUMENT::".data ++ param_name.map Char.toLower ++ "\n".data
  let this_argument :=
    match ui_element.meta with
    | some metaList =>
      match tooltipOf metaList with
      | some tip => this_argument ++ tip ++ "\n".data
      | none => this_argument
    | none => this_argument
  if param_min ≠ [] ∧ param_max ≠ [] then
    this_argument ++ "Minimum value: ".data ++ param_min ++ "\n".data
      ++ "Maximum value: ".data ++ param_max ++ "\n".data
  else this_argument

/-- `get_help_file_arguments`: fold over the UI elements, appending
`"\n" + this_argument` each round (`none` models the `KeyError` when no
`ui` entry has an `items` key). -/
def get_help_file_arguments (json_data : JsonData) : Option (List Char) :=
  match uiItems json_data.ui with
  | none => none
  | some items =>
    some (items.foldl (fun acc it => acc ++ "\n".data ++ helpArg it) [])

/-! ## Parameter list renderer (`get_parameter_list`) -/

/-- One argument of the parameter list (`"%s(%s)"` with the sanitized
label and the `init` value — default `"0"` — when `with_initialization`,
else just the name). -/
def paramArg (ui_element : UIItem) (with_initialization : Bool) : List Char :=
  let param_name :=
    match ui_element.label with
    | some l => sanitize_label l
    | none => []
  let param_default :=
    match ui_element.init with
    | some v => v
    | none => "0".data
  if with_initialization then
    param_name ++ "(".data ++ param_default ++ ")".data
  else param_name

/-- The `"in0, in1, ..."` string built for the input channels. -/
def inputNames (n : Nat) : List Char :=
  (List.range n).foldl
    (fun acc i =>
      if i ≠ 0 then acc ++ ", in".data ++ (Nat.repr i).data
      else acc ++ "in".data ++ (Nat.repr i).data) []

/-- `get_parameter_list`: reads `json_data["ui"][0]["items"]` (hence
`none` when `ui` is empty or its first entry has no `items`), joins the
per-element arguments with `", "` using a counter, and prepends the input
names joined with `","` when there are input channels. -/
def get_parameter_list (json_data : JsonData) (with_initialization : Bool) :
    Option (List Char) :=
  match json_data.ui.head? with
  | none => none
  | some g =>
    match g.items with
    | none => none
    | some items =>
      let inputs := if 0 < json_data.inputs then inputNames json_data.inputs else []
      let params := (items.foldl
        (fun (p : List Char × Nat) it =>
          let this_argument := paramArg it with_initialization
          (if p.2 ≠ 0 then p.1 ++ ", ".data ++ this_argument else this_argument,
           p.2 + 1))
        ([], 0)).1
      some (if 0 < json_data.inputs then
              (if params = [] then inputs else inputs ++ ",".data ++ params)
            else params)

/-! ## Class file renderer (`get_sc_class`) -/

/-- The `init` override template used when `outputs > 1`. -/
def initBlock (outputs : Nat) : List Char :=
  "\n\ninit \x7b | ... theInputs |\n      inputs = theInputs\n      ^this.initOutputs(".data
    ++ ((Nat.repr outputs).data
    ++ ", rate)\n  \x7d\n\n    ".data)

/-- The `checkInputs` template used when `inputs > 0`. -/
def inputCheck (inputs : Nat) : List Char :=
  "\n\ncheckInputs \x7b\n    if (rate == 'audio', \x7b\n      ".data
    ++ ((Nat.repr inputs).data
    ++ ".do(\x7b|i|\n        if (inputs.at(i).rate != 'audio', \x7b\n          ^(\" input at index \" + i + \"(\" + inputs.at(i) +\n            \") is not audio rate\");\n        \x7d);\n      \x7d);\n    \x7d);\n    ^this.checkValidInputs\n  \x7d\n\n".data)

/-- The final class template of `get_sc_class` with its seven `%s` slots
substituted. -/
def scBody (class_name parent_class pInit pPlain name input_check init_str :
    List Char) : List Char :=
  "\n".data ++ (class_name ++ (" : ".data ++ (parent_class
    ++ (" \x7b\n\n    *ar\x7b|".data ++ (pInit
    ++ ("|\n      ^this.multiNew('audio', ".data ++ (pPlain
    ++ (")\n    \x7d\n\n    *kr\x7b|".data ++ (pInit
    ++ ("|\n      ^this.multiNew('control', ".data ++ (pPlain
    ++ (")\n    \x7d\n\n    name \x7b ^\"".data ++ (name
    ++ ("\" \x7d\n\n    info \x7b ^\"Generated with Faust\" \x7d\n    ".data ++ (input_check
    ++ ("\n    ".data ++ (init_str
    ++ "\n\x7d\n".data)))))))))))))))))

/-- `get_sc_class`: parent class and `init` override selected by
`outputs > 1`, input check by `inputs > 0`, then the class template. -/
def get_sc_class (json_data : JsonData) ( noprefix : Nat) : Option (List Char) :=
  let class_name := get_class_name json_data noprefix
  let name := dsp_name json_data
  let parent_class :=
    if 1 < json_data.outputs then "MultiOutUGen".data else "UGen".data
  let init_str :=
    if 1 < json_data.outputs then initBlock json_data.outputs else []
  let input_check :=
    if 0 < json_data.inputs then inputCheck json_data.inputs else []
  match get_parameter_list json_data true, get_parameter_list json_data false with
  | some pInit, some pPlain =>
    some (scBody class_name parent_class pInit pPlain name input_check init_str)
  | _, _ => none

/-! ## Pipeline steps (`convert_files`, `read_json`, `compile`,
`faust2sc`) and the CLI entry point -/

/-- A `sys.exit(message)`: Python exits with status 1 when given a string
argument. -/
structure ExitMsg where
  code : Nat
  msg : List Char
deriving DecidableEq

deriving instance DecidableEq for Except

/-- `Path(p).stem`: final path component without its suffix (the suffix
starts at the last dot, provided that dot is neither the first nor the
last character of the component). -/
def pathStem (p : List Char) : List Char :=
  let base := (p.splitOn '/').getLastD []
  let suffixLen := (base.reverse.takeWhile (fun c => c ≠ '.')).length
  if 1 ≤ suffixLen ∧ suffixLen + 2 ≤ base.length then
    base.take (base.length - suffixLen - 1)
  else base

/-- The record returned by `convert_files`. -/
structure ConvertResult where
  arch_file : List Char
  dsp_file : List Char
  out_dir : List Char
  cpp_file : List Char
  json_file : List Char
deriving DecidableEq

/-- `convert_files`: runs `faust` (`subprocess.run(..., check=True)`,
whose exit status is the `faustExit` parameter) and exits the process on a
non-zero status; `arch or "supercollider.cpp"` treats the empty string
like `None`. -/
def convert_files (faustExit : Nat) (dsp_file out_dir : List Char)
    (arch : Option (List Char)) : Except ExitMsg ConvertResult :=
  let cpp_file := pathStem dsp_file ++ ".cpp".data
  let arch_file :=
    match arch with
    | some a => if a = [] then "supercollider.cpp".data else a
    | none => "supercollider.cpp".data
  if faustExit ≠ 0 then
    Except.error ⟨1, "faust failed to compile json file".data⟩
  else
    Except.ok ⟨arch_file, dsp_file, out_dir, cpp_file, dsp_file ++ ".json".data⟩

/-- `read_json`: `fs` models the filesystem (existence of the file and the
parsed content); a missing file is a `sys.exit` naming the path. -/
def read_json (fs : List Char → Option JsonData) (json_file : List Char) :
    Except ExitMsg JsonData :=
  match fs json_file with
  | some data => Except.ok data
  | none => Except.error ⟨1, "could not find json file ".data ++ json_file⟩

/-- `str(Path(out_dir) / (class_name + "." + ext))`. -/
def scsynthObj (out_dir class_name ext : List Char) : List Char :=
  out_dir ++ "/".data ++ class_name ++ ".".data ++ ext

/-- `str(Path(out_dir) / (class_name + "_supernova." + ext))`. -/
def supernovaObj (out_dir class_name ext : List Char) : List Char :=
  out_dir ++ "/".data ++ class_name ++ "_supernova.".data ++ ext

/-- The f-string `f'{cxx} {flags} -Dmydsp="{class_name}" -o {obj} {cpp_file}'`
shared by both compiler invocations of `compile`. -/
def mkCompileCmd (cxx flags class_name obj cpp_file : List Char) : List Char :=
  cxx ++ " ".data ++ flags ++ " -Dmydsp=\"".data ++ class_name
    ++ "\" -o ".data ++ obj ++ " ".data ++ cpp_file

/-- `compile`: exits only when the `.cpp` file is missing; otherwise runs
`os.system(cmd.replace("\n", ""))` once, and a second time for the
supernova variant when requested.  The returned list is the sequence of
commands handed to `os.system`.  The exit statuses of those commands
(`synthExit`, `novaExit`) are parameters of the model but — exactly like
the ignored `os.system` return values in the source — do not influence
the result. -/
def compile (cppExists : Bool) (synthExit novaExit : Nat)
    (out_dir cpp_file class_name : List Char) (compile_supernova : Bool)
    (flags cxx ext : List Char) : Except ExitMsg (List (List Char)) :=
  if cppExists then
    let synth_cmd :=
      mkCompileCmd cxx flags class_name (scsynthObj out_dir class_name ext) cpp_file
    let cmds := [synth_cmd.filter (fun c => c ≠ '\n')]
    if compile_supernova then
      let nova_cmd :=
        mkCompileCmd cxx flags class_name (supernovaObj out_dir class_name ext) cpp_file
      Except.ok (cmds ++ [nova_cmd.filter (fun c => c ≠ '\n')])
    else
      Except.ok cmds
  else
    Except.error ⟨1, "could not find cpp file: ".data ++ cpp_file⟩

/-- `faust2sc`: convert, read the JSON, derive the class name (the class
and help file writes are pure output effects and are not modelled).  Any
step's `sys.exit` aborts the chain. -/
def faust2sc (faustExit : Nat) (fs : List Char → Option JsonData)
    (faustfile target_folder : List Char) ( noprefix : Nat)
    (arch : Option (List Char)) :
    Except ExitMsg (ConvertResult × JsonData × List Char) :=
  match convert_files faustExit faustfile target_folder arch with
  | Except.error e => Except.error e
  | Except.ok result =>
    match read_json fs result.json_file with
    | Except.error e => Except.error e
    | Except.ok data =>
      Except.ok (result, data, get_class_name data noprefix)

/-- `noprefix = args.noprefix or 1` in `__main__`: `None` and `0` are both
falsy in Python, so they yield `1`. -/
def mainNoprefix ( argNoprefix : Option Nat) : Nat :=
  match argNoprefix with
  | none => 1
  | some v => if v = 0 then 1 else v

/-! ## Spec-side definitions (for refinement comparison only)

These two definitions follow the specification's words, not the source;
they are compared against the source-derived definitions in the claims
about class-name normalization. -/

/-- Modelled from the spec: "capitalize-after-separator, strip
separators" — every separator is dropped and the following character (and
the first character) is uppercased. -/
def specCapStrip : Bool → List Char → List Char
  | _, [] => []
  | up, c :: cs =>
    if isSepChar c then specCapStrip true cs
    else (if up then c.toUpper else c) :: specCapStrip false cs

/-- Modelled from the spec, amended to the truncation the code actually
performs: capitalize-after-separator and strip separators, truncate to at
most 30 characters, optionally prepend `"Faust"`, and truncate again to
30 characters when the prefixed name exceeds 31. -/
def specClassName (name : List Char) ( noprefix : Nat) : List Char :=
  let n := (specCapStrip true name).take 30
  let n := if noprefix ≠ 1 then "Faust".data ++ n else n
  if 31 < n.length then n.take 30 else n

/-- No separator character in the leading position. -/
def noLeadSep : List Char → Bool
  | c :: _ => !isSepChar c
  | [] => true

/-- No two adjacent separator characters. -/
def noAdjSep : List Char → Bool
  | a :: b :: rest => (!(isSepChar a && isSepChar b)) && noAdjSep (b :: rest)
  | _ => true

/-- A DSP name with neither a leading separator nor two adjacent
separators (the inputs on which the code implements the spec's
capitalize-and-strip normalization). -/
def goodName (l : List Char) : Bool := noLeadSep l && noAdjSep l

/-- Benign-content condition for one UI element used when counting the
`ARGUMENT::` blocks of the help renderer: none of the free-text fields
that are copied verbatim into a block (`min`, `max`, tooltip) themselves
contain the block marker `"ARGUMENT::"`. -/
def helpArgOK (it : UIItem) : Prop :=
  countSub "ARGUMENT::".data (it.min.getD []) = 0
  ∧ countSub "ARGUMENT::".data (it.max.getD []) = 0
  ∧ countSub "ARGUMENT::".data ((it.meta.bind tooltipOf).getD []) = 0

instance (it : UIItem) : Decidable (helpArgOK it) := by
  unfold helpArgOK
  infer_instance

/-- A concrete block `L` is split-safe for `pat` when no occurrence of
`pat` can straddle the right edge of `L`: every suffix of `L` that is a
prefix of `pat` already contains all of `pat`. -/
def splitSafe (pat : List Char) : List Char → Bool
  | [] => true
  | c :: l =>
    (!((c :: l).isPrefixOf pat) || pat.isPrefixOf (c :: l)) && splitSafe pat l

/-! ## Substring counting lemmas -/

theorem isPrefixOf_iff (p s : List Char) : p.isPrefixOf s = true ↔ ∃ t, s = p ++ t := by
  induction p generalizing s with
  | nil => simp [List.isPrefixOf]
  | cons a ps ih =>
    cases s with
    | nil => simp [List.isPrefixOf]
    | cons b t =>
      simp only [List.isPrefixOf, Bool.and_eq_true, beq_iff_eq, ih]
      constructor
      · rintro ⟨rfl, u, rfl⟩
        exact ⟨u, rfl⟩
      · rintro ⟨u, h⟩
        cases h
        exact ⟨rfl, u, rfl⟩

theorem prefix_trans_left {pat a b : List Char} {c : Char}
    (hc : c ∉ pat) (h : pat.isPrefixOf (a ++ c :: b) = true) :
    pat.isPrefixOf a = true := by
  induction pat generalizing a with
  | nil => simp [List.isPrefixOf]
  | cons p ps ih =>
    cases a with
    | nil =>
      rw [List.nil_append] at h
      rw [List.isPrefixOf] at h
      simp only [Bool.and_eq_true, beq_iff_eq] at h
      exact absurd (h.1 ▸ List.mem_cons_self _ _) hc
    | cons x a' =>
      rw [List.cons_append] at h
      rw [List.isPrefixOf] at h ⊢
      simp only [Bool.and_eq_true, beq_iff_eq] at h ⊢
      exact ⟨h.1, ih (fun hm => hc (List.mem_cons_of_mem _ hm)) h.2⟩

theorem prefix_extend {pat a : List Char} (z : List Char)
    (h : pat.isPrefixOf a = true) : pat.isPrefixOf (a ++ z) = true := by
  rw [isPrefixOf_iff] at h ⊢
  obtain ⟨t, rfl⟩ := h
  exact ⟨t ++ z, by simp⟩

theorem countSub_append_cons {pat : List Char} (hpat : pat ≠ []) (a : List Char)
    {b : List Char} {c : Char} (hc : c ∉ pat) :
    countSub pat (a ++ c :: b) = countSub pat a + countSub pat b := by
  induction a with
  | nil =>
    have hp : pat.isPrefixOf (c :: b) = false := by
      cases hp : pat.isPrefixOf (c :: b) with
      | false => rfl
      | true =>
        exfalso
        rw [isPrefixOf_iff] at hp
        obtain ⟨t, ht⟩ := hp
        cases pat with
        | nil => exact hpat rfl
        | cons p ps =>
          rw [List.cons_append] at ht
          injection ht with h1 _
          exact hc (h1 ▸ List.mem_cons_self _ _)
    simp [countSub, hp]
  | cons x a' ih =>
    have hiff : pat.isPrefixOf (x :: (a' ++ c :: b)) = pat.isPrefixOf (x :: a') := by
      cases h2 : pat.isPrefixOf (x :: a') with
      | true =>
        have h3 := prefix_extend (c :: b) h2
        rw [List.cons_append] at h3
        exact h3
      | false =>
        cases h1 : pat.isPrefixOf (x :: (a' ++ c :: b)) with
        | false => rfl
        | true =>
          exfalso
          have h4 : pat.isPrefixOf ((x :: a') ++ c :: b) = true := by
            rw [List.cons_append]
            exact h1
          rw [prefix_trans_left hc h4] at h2
          exact Bool.noConfusion h2
    rw [List.cons_append]
    simp only [countSub, hiff, ih]
    omega

theorem countSub_drop_self {pat : List Char} (hno : noSelfOverlap pat) :
    ∀ (u : List Char) (i : Nat) (X : List Char), u = pat.drop i → 0 < i → i ≤ pat.length →
    countSub pat (u ++ X) = countSub pat X := by
  intro u
  induction u with
  | nil =>
    intro i X _ _ _
    simp
  | cons c u' ih =>
    intro i X hu hi hile
    have hlen : i < pat.length := by
      by_contra hge
      rw [List.drop_eq_nil_of_le (by omega)] at hu
      exact List.noConfusion hu
    have hp : pat.isPrefixOf (c :: (u' ++ X)) = false := by
      cases hp : pat.isPrefixOf (c :: (u' ++ X)) with
      | false => rfl
      | true =>
        exfalso
        rw [isPrefixOf_iff] at hp
        obtain ⟨t, ht⟩ := hp
        have hulen : (c :: u').length = pat.length - i := by
          rw [hu, List.length_drop]
        have h1 : ((c :: u') ++ X).take (c :: u').length = c :: u' := by
          rw [List.take_append_eq_append_take, List.take_length, Nat.sub_self,
            List.take_zero, List.append_nil]
        have h2 : (pat ++ t).take (c :: u').length = pat.take (c :: u').length := by
          rw [List.take_append_eq_append_take,
            Nat.sub_eq_zero_of_le (by rw [hulen]; omega), List.take_zero, List.append_nil]
        have h3 : pat.take (c :: u').length = c :: u' := by
          rw [← h2, ← ht]
          rw [List.cons_append] at h1
          exact h1
        have hupre : (c :: u').isPrefixOf pat = true := by
          rw [isPrefixOf_iff]
          refine ⟨pat.drop (c :: u').length, ?_⟩
          conv_lhs => rw [← List.take_append_drop (c :: u').length pat]
          rw [h3]
        rw [hu] at hupre
        exact hno i hlen hi hupre
    rw [List.cons_append]
    simp only [countSub, hp]
    have hu' : u' = pat.drop (i + 1) := by
      rw [← List.tail_drop, ← hu]
      rfl
    rw [ih (i + 1) X hu' (by omega) (by omega)]
    simp

theorem countSub_self_append {pat : List Char} (hpat : pat ≠ []) (hno : noSelfOverlap pat)
    (X : List Char) : countSub pat (pat ++ X) = 1 + countSub pat X := by
  cases pat with
  | nil => exact absurd rfl hpat
  | cons p ps =>
    rw [List.cons_append]
    simp only [countSub]
    have hp : (p :: ps).isPrefixOf (p :: (ps ++ X)) = true := by
      rw [isPrefixOf_iff]
      exact ⟨X, by simp⟩
    rw [hp]
    have hd := countSub_drop_self hno ps 1 X rfl (by omega) (by simp)
    rw [hd]
    simp

theorem countSub_eq_zero_of_mem_not_mem {pat s : List Char} {c : Char}
    (hcp : c ∈ pat) (hcs : c ∉ s) : countSub pat s = 0 := by
  induction s with
  | nil => rfl
  | cons x rest ih =>
    have hp : pat.isPrefixOf (x :: rest) = false := by
      cases hp : pat.isPrefixOf (x :: rest) with
      | false => rfl
      | true =>
        exfalso
        rw [isPrefixOf_iff] at hp
        obtain ⟨t, ht⟩ := hp
        exact hcs (ht ▸ List.mem_append_left t hcp)
    simp only [countSub, hp]
    have hrest : c ∉ rest := fun hm => hcs (List.mem_cons_of_mem _ hm)
    simp [ih hrest]

theorem countSub_pos_iff_hasSub {pat s : List Char} (hpat : pat ≠ []) :
    0 < countSub pat s ↔ hasSub pat s := by
  constructor
  · intro h
    induction s with
    | nil => simp [countSub] at h
    | cons x rest ih =>
      cases hp : pat.isPrefixOf (x :: rest) with
      | true =>
        rw [isPrefixOf_iff] at hp
        obtain ⟨t, ht⟩ := hp
        exact ⟨[], t, by simp [ht]⟩
      | false =>
        simp only [countSub, hp] at h
        simp only [Bool.false_eq_true, if_false] at h
        obtain ⟨l, r, hr⟩ := ih (by omega)
        exact ⟨x :: l, r, by simp [hr]⟩
  · rintro ⟨l, r, rfl⟩
    induction l with
    | nil =>
      cases pat with
      | nil => exact absurd rfl hpat
      | cons p ps =>
        rw [List.nil_append, List.cons_append]
        simp only [countSub]
        have hp : (p :: ps).isPrefixOf (p :: (ps ++ r)) = true := by
          rw [isPrefixOf_iff]
          exact ⟨r, by simp⟩
        rw [hp]
        simp
    | cons x l' ih =>
      simp only [List.cons_append, countSub]
      exact Nat.lt_of_lt_of_le ih (Nat.le_add_left _ _)


/-! ## Character lemmas -/

theorem charToNat_ofNat_valid {n : Nat} (h : n.isValidChar) : (Char.ofNat n).toNat = n := by
  rw [Char.ofNat, dif_pos h]
  simp [Char.ofNatAux, Char.toNat, UInt32.toNat, BitVec.toNat_ofNatLt]

theorem toUpper_of_not_lower {c : Char} (h : ¬(97 ≤ c.toNat ∧ c.toNat ≤ 122)) :
    c.toUpper = c := by
  rw [Char.toUpper]
  simp only [ge_iff_le]
  rw [if_neg (by omega)]

theorem toNat_toUpper_of_lower {c : Char} (h1 : 97 ≤ c.toNat) (h2 : c.toNat ≤ 122) :
    c.toUpper.toNat = c.toNat - 32 := by
  rw [Char.toUpper]
  simp only [ge_iff_le]
  rw [if_pos (by omega)]
  exact charToNat_ofNat_valid (Or.inl (by omega))

theorem toUpper_toUpper (c : Char) : c.toUpper.toUpper = c.toUpper := by
  by_cases h : 97 ≤ c.toNat ∧ c.toNat ≤ 122
  · have hn := toNat_toUpper_of_lower h.1 h.2
    exact toUpper_of_not_lower (by omega)
  · rw [toUpper_of_not_lower h, toUpper_of_not_lower h]

theorem toLower_of_not_upper {c : Char} (h : ¬(65 ≤ c.toNat ∧ c.toNat ≤ 90)) :
    c.toLower = c := by
  rw [Char.toLower]
  simp only [ge_iff_le]
  rw [if_neg (by omega)]

theorem toNat_toLower_of_upper {c : Char} (h1 : 65 ≤ c.toNat) (h2 : c.toNat ≤ 90) :
    c.toLower.toNat = c.toNat + 32 := by
  rw [Char.toLower]
  simp only [ge_iff_le]
  rw [if_pos (by omega)]
  exact charToNat_ofNat_valid (Or.inl (by omega))

theorem toNat_ne_imp_ne {a b : Char} (h : a.toNat ≠ b.toNat) : a ≠ b :=
  fun he => h (he ▸ rfl)

theorem toLower_not_in_upper_range (c : Char) :
    ¬(65 ≤ c.toLower.toNat ∧ c.toLower.toNat ≤ 90) := by
  by_cases h : 65 ≤ c.toNat ∧ c.toNat ≤ 90
  · have := toNat_toLower_of_upper h.1 h.2
    omega
  · rw [toLower_of_not_upper h]
    omega

theorem toLower_ne_upA (c : Char) : c.toLower ≠ 'A' := by
  apply toNat_ne_imp_ne
  have := toLower_not_in_upper_range c
  intro he
  rw [he] at this
  exact this (by constructor <;> decide)

/-! ## Walking lemmas, digit lemmas, case lemmas -/

theorem countSub_step_lit (pat : List Char) (hpat : pat ≠ []) {L R : List Char}
    (L' : List Char) (c : Char) (hL : L = L' ++ [c]) (hc : c ∉ pat) :
    countSub pat (L ++ R) = countSub pat L' + countSub pat R := by
  subst hL
  rw [List.append_assoc, List.singleton_append]
  exact countSub_append_cons hpat L' hc

theorem countSub_step_var (pat : List Char) (hpat : pat ≠ []) (V : List Char)
    {L R : List Char} (L'' : List Char) (c : Char) (hL : L = c :: L'') (hc : c ∉ pat) :
    countSub pat (V ++ (L ++ R)) = countSub pat V + countSub pat (L'' ++ R) := by
  subst hL
  rw [List.cons_append]
  exact countSub_append_cons hpat V hc

/-! Digits of `Nat.repr` -/

theorem digitChar_isDigit {m : Nat} (h : m < 10) : (Nat.digitChar m).isDigit = true := by
  interval_cases m <;> decide

theorem toDigitsCore_digits (f : Nat) :
    ∀ (n : Nat) (ds : List Char), (∀ c ∈ ds, c.isDigit = true) →
    ∀ c ∈ Nat.toDigitsCore 10 f n ds, c.isDigit = true := by
  induction f with
  | zero =>
    intro n ds hds c hc
    exact hds c hc
  | succ f ih =>
    intro n ds hds c hc
    rw [Nat.toDigitsCore] at hc
    by_cases h0 : n / 10 = 0
    · rw [if_pos h0] at hc
      rcases List.mem_cons.mp hc with rfl | hmem
      · exact digitChar_isDigit (Nat.mod_lt n (by omega))
      · exact hds c hmem
    · rw [if_neg h0] at hc
      refine ih (n / 10) (Nat.digitChar (n % 10) :: ds) ?_ c hc
      intro d hd
      rcases List.mem_cons.mp hd with rfl | hmem
      · exact digitChar_isDigit (Nat.mod_lt n (by omega))
      · exact hds d hmem

theorem repr_isDigit (n : Nat) : ∀ c ∈ (Nat.repr n).data, c.isDigit = true := by
  intro c hc
  have hrepr : (Nat.repr n).data = Nat.toDigits 10 n := rfl
  rw [hrepr, Nat.toDigits] at hc
  exact toDigitsCore_digits (n + 1) n [] (by simp) c hc

theorem countSub_repr {pat : List Char} {c0 : Char} (hc0 : c0 ∈ pat)
    (hd : c0.isDigit = false) (n : Nat) : countSub pat (Nat.repr n).data = 0 := by
  refine countSub_eq_zero_of_mem_not_mem hc0 (fun hmem => ?_)
  rw [repr_isDigit n c0 hmem] at hd
  exact Bool.noConfusion hd

/-! Lowercased text contains no `ARGUMENT::` -/

theorem countSub_map_toLower {pat : List Char} (hA : 'A' ∈ pat) (l : List Char) :
    countSub pat (l.map Char.toLower) = 0 := by
  refine countSub_eq_zero_of_mem_not_mem hA (fun hmem => ?_)
  obtain ⟨c, _, hc⟩ := List.mem_map.mp hmem
  exact toLower_ne_upA c hc

theorem countSub_sanitize {pat : List Char} (hA : 'A' ∈ pat) (l : List Char) :
    countSub pat (sanitize_label l) = 0 := by
  rw [sanitize_label]
  exact countSub_map_toLower hA _

/-! Separator-freeness of normalized names -/

theorem isSepChar_eq_false_of_toNat {x : Char} (h65 : 65 ≤ x.toNat) (h90 : x.toNat ≤ 90) :
    isSepChar x = false := by
  have h1 : x ≠ '_' := toNat_ne_imp_ne (fun he => by
    rw [(show ('_' : Char).toNat = 95 from rfl)] at he
    omega)
  have h2 : x ≠ '-' := toNat_ne_imp_ne (fun he => by
    rw [(show ('-' : Char).toNat = 45 from rfl)] at he
    omega)
  have h3 : x ≠ ' ' := toNat_ne_imp_ne (fun he => by
    rw [(show (' ' : Char).toNat = 32 from rfl)] at he
    omega)
  simp [isSepChar, h1, h2, h3]

theorem isSepChar_toUpper {c : Char} (h : isSepChar c = false) :
    isSepChar c.toUpper = false := by
  by_cases hl : 97 ≤ c.toNat ∧ c.toNat ≤ 122
  · have hn := toNat_toUpper_of_lower hl.1 hl.2
    exact isSepChar_eq_false_of_toNat (by omega) (by omega)
  · rw [toUpper_of_not_lower hl]
    exact h

/-! ## Separator lemmas for the class-name claims -/

theorem noAdjSep_tail {c : Char} {cs : List Char} (h : noAdjSep (c :: cs) = true) :
    noAdjSep cs = true := by
  cases cs with
  | nil => rfl
  | cons c2 r =>
    rw [noAdjSep] at h
    simp only [Bool.and_eq_true] at h
    exact h.2

theorem noLeadSep_of_adjSep {c : Char} {cs : List Char}
    (h : noAdjSep (c :: cs) = true) (hs : isSepChar c = true) :
    noLeadSep cs = true := by
  cases cs with
  | nil => rfl
  | cons c2 r =>
    rw [noAdjSep] at h
    simp only [Bool.and_eq_true] at h
    have h1 := h.1
    rw [noLeadSep]
    simp only [Bool.not_eq_true', Bool.and_eq_false_iff] at h1 ⊢
    rcases h1 with h1 | h1
    · rw [hs] at h1
      exact Bool.noConfusion h1
    · exact h1

theorem normalizeLoop_sepFree :
    ∀ l : List Char, noAdjSep l = true →
      (∀ c ∈ normalizeLoop false l, isSepChar c = false) ∧
      (noLeadSep l = true → ∀ c ∈ normalizeLoop true l, isSepChar c = false) := by
  intro l
  induction l with
  | nil =>
    intro _
    constructor
    · intro c hc
      simp [normalizeLoop] at hc
    · intro _ c hc
      simp [normalizeLoop] at hc
  | cons x cs ih =>
    intro hadj
    have hadj' : noAdjSep cs = true := noAdjSep_tail hadj
    constructor
    · by_cases hsep : isSepChar x = true
      · rw [normalizeLoop, if_pos hsep]
        exact (ih hadj').2 (noLeadSep_of_adjSep hadj hsep)
      · rw [normalizeLoop, if_neg hsep]
        intro c hc
        rcases List.mem_cons.mp hc with rfl | hmem
        · exact Bool.not_eq_true _ ▸ hsep
        · exact (ih hadj').1 c hmem
    · intro hlead
      rw [normalizeLoop]
      intro c hc
      rcases List.mem_cons.mp hc with rfl | hmem
      · have hx : isSepChar x = false := by
          rw [noLeadSep] at hlead
          simpa using hlead
        exact isSepChar_toUpper hx
      · exact (ih hadj').1 c hmem

theorem normalizeLoop_false_id {l : List Char}
    (h : ∀ c ∈ l, isSepChar c = false) : normalizeLoop false l = l := by
  induction l with
  | nil => rfl
  | cons x cs ih =>
    rw [normalizeLoop, if_neg (by simp [h x (List.mem_cons_self x cs)])]
    rw [ih (fun c hc => h c (List.mem_cons_of_mem x hc))]

/-! The loop agrees with the spec's capitalize-and-strip on good names -/

theorem normalizeLoop_eq_specCapStrip :
    ∀ l : List Char, noAdjSep l = true →
      normalizeLoop false l = specCapStrip false l ∧
      (noLeadSep l = true → normalizeLoop true l = specCapStrip true l) := by
  intro l
  induction l with
  | nil => intro _; exact ⟨rfl, fun _ => rfl⟩
  | cons x cs ih =>
    intro hadj
    have hadj' : noAdjSep cs = true := noAdjSep_tail hadj
    constructor
    · by_cases hsep : isSepChar x = true
      · rw [normalizeLoop, if_pos hsep, specCapStrip, if_pos hsep]
        exact (ih hadj').2 (noLeadSep_of_adjSep hadj hsep)
      · rw [normalizeLoop, if_neg hsep, specCapStrip, if_neg hsep]
        rw [(ih hadj').1]
        simp
    · intro hlead
      have hx : isSepChar x = false := by
        rw [noLeadSep] at hlead
        simpa using hlead
      rw [normalizeLoop, specCapStrip, if_neg (by simp [hx])]
      rw [(ih hadj').1]
      simp

/-! ## Claims C1, C2, C4, C7, C8, C9, C10 -/

/-- Claim C1, counterexample.  The claim states that the derived class name
capitalizes the character after each separator, strips the separators, and
truncates to exactly 31 characters when longer.  The code disagrees twice:
a separator whose predecessor is also a separator is kept (uppercased)
instead of stripped and the following character stays lowercase
(`"x__y"` normalizes to `"X_y"`, not the claimed `"XY"` — compare
`specCapStrip`, the spec's capitalize-and-strip), and truncation produces
30 characters, not 31 (a 36-character name yields a 30-character class
name). -/
theorem claim1_cex :
    normalizeClassName "x__y".data = "X_y".data
    ∧ "X_y".data ≠ "XY".data
    ∧ specCapStrip true "x__y".data = "XY".data
    ∧ (get_class_name ⟨List.replicate 36 'a', 0, 0, []⟩ 1).length = 30
    ∧ (30 : Nat) ≠ 31 := by
  decide

/-- Claim C1, amended: for every DSP name with no leading separator and no
two adjacent separators, the derived class name (normalizeClassName
followed by get_class_name) capitalizes the character after each
separator, strips the separators, truncates to at most 30 characters
(not 31), optionally prepends the fixed prefix "Faust", and truncates
again to 30 characters when the prefixed result exceeds 31. -/
theorem claim1_amended (jd : JsonData) (np : Nat) (h : goodName jd.name = true) :
    get_class_name jd np = specClassName jd.name np := by
  rw [goodName, Bool.and_eq_true] at h
  obtain ⟨hlead, hadj⟩ := h
  have hloop := (normalizeLoop_eq_specCapStrip jd.name hadj).2 hlead
  simp only [get_class_name, specClassName, dsp_name, normalizeClassName, hloop]

/-- Witness for the amended claim C1, at the spec’s own example
`"my-synth one"` (which normalizes to `"MySynthOne"`). -/
theorem claim1_amended_witness :
    goodName "my-synth one".data = true
    ∧ get_class_name ⟨"my-synth one".data, 0, 0, []⟩ 1
        = specClassName "my-synth one".data 1
    ∧ get_class_name ⟨"my-synth one".data, 0, 0, []⟩ 1 = "MySynthOne".data :=
  ⟨by decide, claim1_amended ⟨"my-synth one".data, 0, 0, []⟩ 1 (by decide), by decide⟩

/-- Claim C7, counterexample.  normalizeClassName is not idempotent: on
`"a__b"` it yields `"A_b"`, and a second application yields `"AB"`. -/
theorem claim7_cex :
    normalizeClassName (normalizeClassName "a__b".data) ≠ normalizeClassName "a__b".data
    ∧ normalizeClassName "a__b".data = "A_b".data
    ∧ normalizeClassName (normalizeClassName "a__b".data) = "AB".data := by
  decide

/-- Claim C7, amended: normalizeClassName is idempotent on every string
with no two adjacent separators (a leading separator is allowed: a first
pass leaves it in place uppercased, and `'_'.toUpper = '_'`, so a second
pass reproduces it; in particular the function is the identity on
already-normalized input), though not on arbitrary strings. -/
theorem claim7_amended (s : List Char) (h : noAdjSep s = true) :
    normalizeClassName (normalizeClassName s) = normalizeClassName s := by
  have hcn : ∀ l : List Char, normalizeClassName l = (normalizeLoop true l).take 30 :=
    fun l => rfl
  cases s with
  | nil => rfl
  | cons c cs =>
    have hsfF : ∀ d ∈ normalizeLoop false cs, isSepChar d = false :=
      (normalizeLoop_sepFree cs (noAdjSep_tail h)).1
    have hstep : normalizeLoop true (c :: cs) = c.toUpper :: normalizeLoop false cs := rfl
    have htake : ∀ (x : Char) (l : List Char), (x :: l).take 30 = x :: l.take 29 :=
      fun x l => rfl
    rw [hcn, hcn, hstep, htake]
    have hsf2 : ∀ d ∈ (normalizeLoop false cs).take 29, isSepChar d = false :=
      fun d hd => hsfF d (List.take_subset 29 _ hd)
    have hstep2 :
        normalizeLoop true (c.toUpper :: (normalizeLoop false cs).take 29)
          = c.toUpper.toUpper :: normalizeLoop false ((normalizeLoop false cs).take 29) :=
      rfl
    rw [hstep2, toUpper_toUpper, normalizeLoop_false_id hsf2, htake, List.take_take]
    simp

/-- Witness for the amended claim C7, at an input with a leading
separator (so outside the spec-equality regime of C1) and no two
adjacent separators. -/
theorem claim7_amended_witness :
    noAdjSep "_my-synth one".data = true
    ∧ noLeadSep "_my-synth one".data = false
    ∧ normalizeClassName (normalizeClassName "_my-synth one".data)
        = normalizeClassName "_my-synth one".data :=
  ⟨by decide, by decide, claim7_amended "_my-synth one".data (by decide)⟩

/-- Claim C8, counterexample.  With prefixing disabled, the derived class
name of the DSP name `"123"` is `"123"`, which does not start with an
uppercase letter. -/
theorem claim8_cex :
    get_class_name ⟨"123".data, 0, 0, []⟩ 1 = "123".data
    ∧ (get_class_name ⟨"123".data, 0, 0, []⟩ 1).head? = some '1'
    ∧ ('1').isUpper = false := by
  decide

/-- Claim C8, amended: the derived class name is always at most 31
characters long; when prefixing is enabled it starts with "Faust"; when
prefixing is disabled and the DSP name is nonempty, it starts with the
uppercase conversion of the name’s first character (an uppercase letter
whenever that character is a letter, but e.g. a digit stays a digit). -/
theorem claim8_amended (jd : JsonData) (np : Nat) :
    (get_class_name jd np).length ≤ 31
    ∧ (np ≠ 1 → ∃ t, get_class_name jd np = "Faust".data ++ t)
    ∧ (np = 1 → ∀ c cs, jd.name = c :: cs →
        ∃ t, get_class_name jd np = c.toUpper :: t) := by
  refine ⟨?_, ?_, ?_⟩
  · rw [get_class_name]
    by_cases h31 :
        31 < (if np ≠ 1 then "Faust".data ++ dsp_name jd else dsp_name jd).length
    · rw [if_pos h31]
      have hle := List.length_take_le 30
        (if np ≠ 1 then "Faust".data ++ dsp_name jd else dsp_name jd)
      omega
    · rw [if_neg h31]
      omega
  · intro hnp
    rw [get_class_name, if_pos hnp]
    by_cases h31 : 31 < ("Faust".data ++ dsp_name jd).length
    · rw [if_pos h31]
      refine ⟨(dsp_name jd).take (30 - "Faust".data.length), ?_⟩
      rw [List.take_append_eq_append_take]
      congr 1
    · rw [if_neg h31]
      exact ⟨dsp_name jd, rfl⟩
  · intro hnp c cs hname
    subst hnp
    rw [get_class_name, if_neg (show ¬((1 : Nat) ≠ 1) from fun hne => hne rfl)]
    have hd : dsp_name jd = c.toUpper :: (normalizeLoop false cs).take 29 := by
      rw [dsp_name, hname]
      rfl
    rw [hd]
    have hlen := List.length_take_le 29 (normalizeLoop false cs)
    rw [if_neg (by
      simp only [List.length_cons]
      omega)]
    exact ⟨_, rfl⟩

/-- Witness for the amended claim C8 (prefixing enabled). -/
theorem claim8_amended_witness :
    (0 : Nat) ≠ 1
    ∧ (∃ t, get_class_name ⟨"demo".data, 0, 0, []⟩ 0 = "Faust".data ++ t) :=
  ⟨by decide, (claim8_amended ⟨"demo".data, 0, 0, []⟩ 0).2.1 (by decide)⟩

/-- Claim C10: for every value of the CLI noprefix (-n) argument admitted
by argparse (unset, 0 or 1), the effective noprefix value computed by the
main entry point (`args.noprefix or 1`) equals 1, so a run started from
the command line always derives the class name exactly as with
noprefix = 1 — the "Faust" prefix branch is never taken, even under
`-n 0`. -/
theorem claim10_noprefix (a : Option Nat) (jd : JsonData)
    (h : a = none ∨ a = some 0 ∨ a = some 1) :
    mainNoprefix a = 1 ∧ get_class_name jd ( mainNoprefix a) = get_class_name jd 1 := by
  rcases h with rfl | rfl | rfl <;> exact ⟨rfl, rfl⟩

/-- Witness for claim C10 at the interesting input `-n 0`. -/
theorem claim10_witness :
    ((some 0 : Option Nat) = none ∨ (some 0 : Option Nat) = some 0
      ∨ (some 0 : Option Nat) = some 1)
    ∧ mainNoprefix (some 0) = 1
    ∧ get_class_name ⟨"demo".data, 0, 0, []⟩ ( mainNoprefix (some 0))
        = get_class_name ⟨"demo".data, 0, 0, []⟩ 1 := by
  have h := claim10_noprefix (some 0) ⟨"demo".data, 0, 0, []⟩ (Or.inr (Or.inl rfl))
  exact ⟨Or.inr (Or.inl rfl), h.1, h.2⟩

/-- Claim C4: for every path that does not refer to an existing file,
read_json exits the process with status 1 (non-zero) and an error message
that names the missing path; it never returns a value. -/
theorem claim4_read_json (fs : List Char → Option JsonData) (p : List Char)
    (h : fs p = none) :
    read_json fs p = Except.error ⟨1, "could not find json file ".data ++ p⟩
    ∧ hasSub p ("could not find json file ".data ++ p)
    ∧ (1 : Nat) ≠ 0 := by
  refine ⟨?_, ⟨"could not find json file ".data, [], by simp⟩, by decide⟩
  rw [read_json, h]

/-- Witness for claim C4 on a concrete missing file. -/
theorem claim4_witness :
    ((fun _ : List Char => (none : Option JsonData)) "missing.dsp.json".data = none)
    ∧ read_json (fun _ => none) "missing.dsp.json".data
        = Except.error ⟨1, "could not find json file missing.dsp.json".data⟩ := by
  have h := claim4_read_json (fun _ => none) "missing.dsp.json".data rfl
  refine ⟨rfl, ?_⟩
  rw [h.1]
  decide

/-- Claim C9: the compiler command built for the standard (scsynth) build
and the one built for the supernova build are identical except for the
output object filename after `-o`; and `compile` runs exactly these two
commands.  The shared prefix contains all compilation flags, so no flag
differs between the two invocations. -/
theorem claim9_commands (cxx flags class_name out_dir ext cpp_file : List Char) :
    (∃ pre post,
      mkCompileCmd cxx flags class_name (scsynthObj out_dir class_name ext) cpp_file
        = pre ++ scsynthObj out_dir class_name ext ++ post
      ∧ mkCompileCmd cxx flags class_name (supernovaObj out_dir class_name ext) cpp_file
        = pre ++ supernovaObj out_dir class_name ext ++ post)
    ∧ compile true 0 0 out_dir cpp_file class_name true flags cxx ext
        = Except.ok
            [(mkCompileCmd cxx flags class_name (scsynthObj out_dir class_name ext)
                cpp_file).filter (fun c => c ≠ '\n'),
             (mkCompileCmd cxx flags class_name (supernovaObj out_dir class_name ext)
                cpp_file).filter (fun c => c ≠ '\n')] := by
  constructor
  · refine ⟨cxx ++ " ".data ++ flags ++ " -Dmydsp=\"".data ++ class_name ++ "\" -o ".data,
      " ".data ++ cpp_file, ?_, ?_⟩ <;> simp [mkCompileCmd, List.append_assoc]
  · rfl

/-- Claim C2, counterexample.  When the C++ compiler invoked through
`os.system` exits with status 1 for the scsynth object, `compile` does
not terminate the process: it still returns normally and still runs the
subsequent supernova compiler invocation. -/
theorem claim2_cex :
    compile true 1 1 "/tmp".data "a.cpp".data "Demo".data true
        "FLAGS".data "c++".data "so".data
      = Except.ok ["c++ FLAGS -Dmydsp=\"Demo\" -o /tmp/Demo.so a.cpp".data,
                   "c++ FLAGS -Dmydsp=\"Demo\" -o /tmp/Demo_supernova.so a.cpp".data] := by
  decide

/-- Claim C2, amended: a non-zero exit of the DSP compiler (`faust`)
terminates the run immediately with a human-readable message, both in
convert_files and in the surrounding faust2sc pipeline (so no later step
runs); a missing generated source file likewise terminates `compile`;
but the exit statuses of the two C++ compiler invocations are ignored
— `compile`’s result does not depend on them at all. -/
theorem claim2_amended (faustExit : Nat) (dsp outd : List Char)
    (arch : Option (List Char)) (fs : List Char → Option JsonData) (np : Nat)
    (cpp cn flags cxx ext : List Char) (e1 e2 e1' e2' : Nat) (sn : Bool)
    (hf : faustExit ≠ 0) :
    convert_files faustExit dsp outd arch
        = Except.error ⟨1, "faust failed to compile json file".data⟩
    ∧ faust2sc faustExit fs dsp outd np arch
        = Except.error ⟨1, "faust failed to compile json file".data⟩
    ∧ compile false e1 e2 outd cpp cn sn flags cxx ext
        = Except.error ⟨1, "could not find cpp file: ".data ++ cpp⟩
    ∧ compile true e1 e2 outd cpp cn sn flags cxx ext
        = compile true e1' e2' outd cpp cn sn flags cxx ext := by
  refine ⟨?_, ?_, rfl, rfl⟩
  · simp [convert_files, hf]
  · simp [faust2sc, convert_files, hf]

/-- Witness for the amended claim C2. -/
theorem claim2_amended_witness :
    (1 : Nat) ≠ 0
    ∧ convert_files 1 "a.dsp".data "/tmp".data none
        = Except.error ⟨1, "faust failed to compile json file".data⟩ :=
  ⟨by decide, (claim2_amended 1 "a.dsp".data "/tmp".data none (fun _ => none) 1
      "a.cpp".data "Demo".data "F".data "c++".data "so".data 0 0 0 0 false
      (by decide)).1⟩

/-! ## Claim C3: help-file ARGUMENT:: blocks -/

theorem countSub_split' (pat : List Char) (V b : List Char) (c : Char)
    (hpat : pat ≠ []) (hc : c ∉ pat) :
    countSub pat (V ++ c :: b) = countSub pat V + countSub pat b :=
  countSub_append_cons hpat V hc

theorem countSub_helpArg (it : UIItem) (hok : helpArgOK it) :
    countSub "ARGUMENT::".data (helpArg it) = 1 := by
  obtain ⟨hmin0, hmax0, htip0⟩ := hok
  rcases it with ⟨lab, mn, mx, ini, mt⟩
  simp only at hmin0 hmax0 htip0
  cases mn with
  | none =>
    cases mx with
    | none =>
      cases mt with
      | none =>
        simp only [helpArg]
        split_ifs <;> simp_all [countSub, List.isPrefixOf, countSub_split', countSub_map_toLower]
      | some ml =>
        cases htt : tooltipOf ml with
        | none =>
          simp only [helpArg, htt]
          split_ifs <;> simp_all [countSub, List.isPrefixOf, countSub_split', countSub_map_toLower]
        | some tip =>
          have htipc : countSub "ARGUMENT::".data tip = 0 := by
            simp only [Option.some_bind, htt, Option.getD_some] at htip0
            exact htip0
          simp only [helpArg, htt]
          split_ifs <;> simp_all [countSub, List.isPrefixOf, countSub_split', countSub_map_toLower, htipc]
    | some m2 =>
      have hm2 : countSub "ARGUMENT::".data m2 = 0 := by simpa using hmax0
      cases mt with
      | none =>
        simp only [helpArg]
        split_ifs <;> simp_all [countSub, List.isPrefixOf, countSub_split', countSub_map_toLower, hm2]
      | some ml =>
        cases htt : tooltipOf ml with
        | none =>
          simp only [helpArg, htt]
          split_ifs <;> simp_all [countSub, List.isPrefixOf, countSub_split', countSub_map_toLower, hm2]
        | some tip =>
          have htipc : countSub "ARGUMENT::".data tip = 0 := by
            simp only [Option.some_bind, htt, Option.getD_some] at htip0
            exact htip0
          simp only [helpArg, htt]
          split_ifs <;> simp_all [countSub, List.isPrefixOf, countSub_split', countSub_map_toLower, hm2, htipc]
  | some m1 =>
    have hm1 : countSub "ARGUMENT::".data m1 = 0 := by simpa using hmin0
    cases mx with
    | none =>
      cases mt with
      | none =>
        simp only [helpArg]
        split_ifs <;> simp_all [countSub, List.isPrefixOf, countSub_split', countSub_map_toLower, hm1]
      | some ml =>
        cases htt : tooltipOf ml with
        | none =>
          simp only [helpArg, htt]
          split_ifs <;> simp_all [countSub, List.isPrefixOf, countSub_split', countSub_map_toLower, hm1]
        | some tip =>
          have htipc : countSub "ARGUMENT::".data tip = 0 := by
            simp only [Option.some_bind, htt, Option.getD_some] at htip0
            exact htip0
          simp only [helpArg, htt]
          split_ifs <;> simp_all [countSub, List.isPrefixOf, countSub_split', countSub_map_toLower, hm1, htipc]
    | some m2 =>
      have hm2 : countSub "ARGUMENT::".data m2 = 0 := by simpa using hmax0
      cases mt with
      | none =>
        simp only [helpArg]
        split_ifs <;> simp_all [countSub, List.isPrefixOf, countSub_split', countSub_map_toLower, hm1, hm2]
      | some ml =>
        cases htt : tooltipOf ml with
        | none =>
          simp only [helpArg, htt]
          split_ifs <;> simp_all [countSub, List.isPrefixOf, countSub_split', countSub_map_toLower, hm1, hm2]
        | some tip =>
          have htipc : countSub "ARGUMENT::".data tip = 0 := by
            simp only [Option.some_bind, htt, Option.getD_some] at htip0
            exact htip0
          simp only [helpArg, htt]
          split_ifs <;> simp_all [countSub, List.isPrefixOf, countSub_split', countSub_map_toLower, hm1, hm2, htipc]

theorem countSub_help_fold (items : List UIItem)
    (hok : ∀ it ∈ items, helpArgOK it) :
    ∀ acc : List Char,
      countSub "ARGUMENT::".data
        (items.foldl (fun acc it => acc ++ "\n".data ++ helpArg it) acc)
      = countSub "ARGUMENT::".data acc + items.length := by
  induction items with
  | nil =>
    intro acc
    simp
  | cons it rest ih =>
    intro acc
    rw [List.foldl_cons, ih (fun x hx => hok x (List.mem_cons_of_mem _ hx))]
    have hone := countSub_helpArg it (hok it (List.mem_cons_self it rest))
    have hsplit : countSub "ARGUMENT::".data ((acc ++ "\n".data) ++ helpArg it)
        = countSub "ARGUMENT::".data acc + 1 := by
      rw [List.append_assoc]
      rw [(show ("\n".data : List Char) ++ helpArg it = '\n' :: helpArg it from rfl)]
      rw [countSub_split' _ acc (helpArg it) '\n' (by decide) (by decide), hone]
    simp only [← List.append_assoc] at hsplit
    rw [hsplit]
    simp [List.length_cons]
    omega

theorem help_foldl_eq_flatten (items : List UIItem) :
    ∀ acc : List Char,
      items.foldl (fun acc it => acc ++ "\n".data ++ helpArg it) acc
        = acc ++ (items.map (fun it => "\n".data ++ helpArg it)).flatten := by
  induction items with
  | nil =>
    intro acc
    simp
  | cons it rest ih =>
    intro acc
    rw [List.foldl_cons, ih]
    simp [List.append_assoc]

/-- Claim C3: for every metadata record whose UI section holds the list
`items` of control descriptors (the list the renderer iterates over), and
whose free-text fields do not themselves contain the literal marker
`"ARGUMENT::"`, the help-file argument renderer produces exactly
`items.length` ARGUMENT:: blocks, and its output is the in-order
concatenation of the block of each descriptor. -/
theorem claim3_help_blocks (jd : JsonData) (items : List UIItem) (out : List Char)
    (hitems : uiItems jd.ui = some items)
    (hout : get_help_file_arguments jd = some out)
    (hok : ∀ it ∈ items, helpArgOK it) :
    countSub "ARGUMENT::".data out = items.length
    ∧ out = (items.map (fun it => "\n".data ++ helpArg it)).flatten := by
  rw [get_help_file_arguments, hitems] at hout
  injection hout with hout
  constructor
  · rw [← hout, countSub_help_fold items hok []]
    simp [countSub]
  · rw [← hout, help_foldl_eq_flatten]
    rfl

set_option maxRecDepth 4000 in
/-- Witness for claim C3 on a two-descriptor record. -/
theorem claim3_witness :
    uiItems ([⟨some [⟨some "Freq".data, some "20".data, some "2000".data,
        some "100".data, some [⟨some "the frequency".data⟩]⟩,
      ⟨some "Gain".data, none, none, none, none⟩]⟩] : List UIGroup)
      = some [⟨some "Freq".data, some "20".data, some "2000".data,
        some "100".data, some [⟨some "the frequency".data⟩]⟩,
      ⟨some "Gain".data, none, none, none, none⟩]
    ∧ countSub "ARGUMENT::".data
        "\nARGUMENT::freq\nthe frequency\nMinimum value: 20\nMaximum value: 2000\n\nARGUMENT::gain\n".data
      = 2 := by
  have h := claim3_help_blocks
    ⟨"demo".data, 2, 2, [⟨some [⟨some "Freq".data, some "20".data, some "2000".data,
        some "100".data, some [⟨some "the frequency".data⟩]⟩,
      ⟨some "Gain".data, none, none, none, none⟩]⟩]⟩
    [⟨some "Freq".data, some "20".data, some "2000".data,
        some "100".data, some [⟨some "the frequency".data⟩]⟩,
      ⟨some "Gain".data, none, none, none, none⟩]
    "\nARGUMENT::freq\nthe frequency\nMinimum value: 20\nMaximum value: 2000\n\nARGUMENT::gain\n".data
    (by decide) (by decide) (by decide)
  exact ⟨by decide, h.1⟩

/-! ## Claims C5 and C6: parent class, init override, checkInputs block -/

theorem isPrefixOf_append_cases (p l r : List Char)
    (h : p.isPrefixOf (l ++ r) = true) :
    l.isPrefixOf p = true ∨ p.isPrefixOf l = true := by
  induction p generalizing l with
  | nil =>
    right
    cases l <;> rfl
  | cons a p' ih =>
    cases l with
    | nil => exact Or.inl rfl
    | cons b l' =>
      rw [List.cons_append] at h
      simp only [List.isPrefixOf, Bool.and_eq_true, beq_iff_eq] at h
      obtain ⟨hab, h2⟩ := h
      rcases ih l' h2 with hca | hca
      · left
        simp only [List.isPrefixOf, Bool.and_eq_true, beq_iff_eq]
        exact ⟨hab.symm, hca⟩
      · right
        simp only [List.isPrefixOf, Bool.and_eq_true, beq_iff_eq]
        exact ⟨hab, hca⟩

theorem countSub_safe (pat L : List Char) (h : splitSafe pat L = true)
    (R : List Char) :
    countSub pat (L ++ R) = countSub pat L + countSub pat R := by
  induction L with
  | nil => simp [countSub]
  | cons c l ih =>
    simp only [splitSafe, Bool.and_eq_true, Bool.or_eq_true,
      Bool.not_eq_true'] at h
    obtain ⟨h0, hrest⟩ := h
    have hhead : pat.isPrefixOf (c :: (l ++ R)) = pat.isPrefixOf (c :: l) := by
      rcases h0 with h0 | h0
      · cases hq : pat.isPrefixOf (c :: (l ++ R)) with
        | false =>
          cases hp : pat.isPrefixOf (c :: l) with
          | false => rfl
          | true =>
            rw [← List.cons_append] at hq
            rw [prefix_extend R hp] at hq
            exact Bool.noConfusion hq
        | true =>
          have hq' : pat.isPrefixOf ((c :: l) ++ R) = true := by
            rw [List.cons_append]
            exact hq
          rcases isPrefixOf_append_cases pat (c :: l) R hq' with hca | hca
          · rw [hca] at h0
            exact Bool.noConfusion h0
          · rw [hca]
      · rw [h0]
        have hext := prefix_extend R h0
        rw [List.cons_append] at hext
        exact hext
    rw [List.cons_append]
    simp only [countSub, hhead, ih hrest]
    omega

theorem countSub_cons_ne {pat : List Char} (hpat : pat ≠ []) {c : Char}
    (hc : c ∉ pat) (l : List Char) :
    countSub pat (c :: l) = countSub pat l := by
  have h : countSub pat ([] ++ c :: l) = countSub pat [] + countSub pat l :=
    countSub_append_cons hpat [] hc
  simpa [countSub] using h

theorem countSub_var_lit (pat : List Char) (hpat : pat ≠ []) (G : List Char)
    (c : Char) (G' : List Char) (hG : G = c :: G') (hc : c ∉ pat)
    {V R : List Char} :
    countSub pat (V ++ (G ++ R)) = countSub pat V + countSub pat (G ++ R) := by
  subst hG
  rw [List.cons_append]
  rw [countSub_append_cons hpat V hc]
  rw [countSub_cons_ne hpat hc]

theorem countSub_var_last (pat : List Char) (hpat : pat ≠ []) (G : List Char)
    (c : Char) (G' : List Char) (hG : G = c :: G') (hc : c ∉ pat)
    {V : List Char} :
    countSub pat (V ++ G) = countSub pat V + countSub pat G := by
  subst hG
  rw [countSub_append_cons hpat V hc]
  rw [countSub_cons_ne hpat hc]

theorem countSub_scBody (pat : List Char) (hpat : pat ≠ [])
    (hsp : ' ' ∉ pat) (hbar : '|' ∉ pat) (hrp : ')' ∉ pat)
    (hqu : '"' ∉ pat) (hnl : '\n' ∉ pat)
    (hA : splitSafe pat "\n".data = true)
    (hB : splitSafe pat " : ".data = true)
    (hC : splitSafe pat " \x7b\n\n    *ar\x7b|".data = true)
    (hD : splitSafe pat "|\n      ^this.multiNew('audio', ".data = true)
    (hE : splitSafe pat ")\n    \x7d\n\n    *kr\x7b|".data = true)
    (hF : splitSafe pat "|\n      ^this.multiNew('control', ".data = true)
    (hG : splitSafe pat ")\n    \x7d\n\n    name \x7b ^\"".data = true)
    (hH : splitSafe pat "\" \x7d\n\n    info \x7b ^\"Generated with Faust\" \x7d\n    ".data = true)
    (hI : splitSafe pat "\n    ".data = true)
    (cn par pI pP nm ic ini : List Char) :
    countSub pat (scBody cn par pI pP nm ic ini)
      = countSub pat cn + countSub pat par + 2 * countSub pat pI
        + 2 * countSub pat pP + countSub pat nm + countSub pat ic
        + countSub pat ini
        + (countSub pat "\n".data + countSub pat " : ".data
           + countSub pat " \x7b\n\n    *ar\x7b|".data
           + countSub pat "|\n      ^this.multiNew('audio', ".data
           + countSub pat ")\n    \x7d\n\n    *kr\x7b|".data
           + countSub pat "|\n      ^this.multiNew('control', ".data
           + countSub pat ")\n    \x7d\n\n    name \x7b ^\"".data
           + countSub pat "\" \x7d\n\n    info \x7b ^\"Generated with Faust\" \x7d\n    ".data
           + countSub pat "\n    ".data + countSub pat "\n\x7d\n".data) := by
  unfold scBody
  rw [countSub_safe pat "\n".data hA]
  rw [countSub_var_lit pat hpat " : ".data ' ' ": ".data rfl hsp]
  rw [countSub_safe pat " : ".data hB]
  rw [countSub_var_lit pat hpat " \x7b\n\n    *ar\x7b|".data ' '
    "\x7b\n\n    *ar\x7b|".data rfl hsp]
  rw [countSub_safe pat " \x7b\n\n    *ar\x7b|".data hC]
  rw [countSub_var_lit pat hpat "|\n      ^this.multiNew('audio', ".data '|'
    "\n      ^this.multiNew('audio', ".data rfl hbar]
  rw [countSub_safe pat "|\n      ^this.multiNew('audio', ".data hD]
  rw [countSub_var_lit pat hpat ")\n    \x7d\n\n    *kr\x7b|".data ')'
    "\n    \x7d\n\n    *kr\x7b|".data rfl hrp]
  rw [countSub_safe pat ")\n    \x7d\n\n    *kr\x7b|".data hE]
  rw [countSub_var_lit pat hpat "|\n      ^this.multiNew('control', ".data '|'
    "\n      ^this.multiNew('control', ".data rfl hbar]
  rw [countSub_safe pat "|\n      ^this.multiNew('control', ".data hF]
  rw [countSub_var_lit pat hpat ")\n    \x7d\n\n    name \x7b ^\"".data ')'
    "\n    \x7d\n\n    name \x7b ^\"".data rfl hrp]
  rw [countSub_safe pat ")\n    \x7d\n\n    name \x7b ^\"".data hG]
  rw [countSub_var_lit pat hpat
    "\" \x7d\n\n    info \x7b ^\"Generated with Faust\" \x7d\n    ".data '"'
    " \x7d\n\n    info \x7b ^\"Generated with Faust\" \x7d\n    ".data rfl hqu]
  rw [countSub_safe pat
    "\" \x7d\n\n    info \x7b ^\"Generated with Faust\" \x7d\n    ".data hH]
  rw [countSub_var_lit pat hpat "\n    ".data '\n' "    ".data rfl hnl]
  rw [countSub_safe pat "\n    ".data hI]
  rw [countSub_var_last pat hpat "\n\x7d\n".data '\n' "\x7d\n".data rfl hnl]
  omega

theorem countSub_inputCheck (pat : List Char) (hpat : pat ≠ [])
    (hdot : '.' ∉ pat)
    (hA : splitSafe pat
      "\n\ncheckInputs \x7b\n    if (rate == 'audio', \x7b\n      ".data = true)
    (hrep : ∀ n, countSub pat (Nat.repr n).data = 0) (n : Nat) :
    countSub pat (inputCheck n)
      = countSub pat
          "\n\ncheckInputs \x7b\n    if (rate == 'audio', \x7b\n      ".data
        + countSub pat
          ".do(\x7b|i|\n        if (inputs.at(i).rate != 'audio', \x7b\n          ^(\" input at index \" + i + \"(\" + inputs.at(i) +\n            \") is not audio rate\");\n        \x7d);\n      \x7d);\n    \x7d);\n    ^this.checkValidInputs\n  \x7d\n\n".data := by
  unfold inputCheck
  rw [countSub_safe pat _ hA]
  rw [countSub_var_last pat hpat
    ".do(\x7b|i|\n        if (inputs.at(i).rate != 'audio', \x7b\n          ^(\" input at index \" + i + \"(\" + inputs.at(i) +\n            \") is not audio rate\");\n        \x7d);\n      \x7d);\n    \x7d);\n    ^this.checkValidInputs\n  \x7d\n\n".data
    '.'
    "do(\x7b|i|\n        if (inputs.at(i).rate != 'audio', \x7b\n          ^(\" input at index \" + i + \"(\" + inputs.at(i) +\n            \") is not audio rate\");\n        \x7d);\n      \x7d);\n    \x7d);\n    ^this.checkValidInputs\n  \x7d\n\n".data
    rfl hdot]
  rw [hrep n]
  omega

theorem countSub_initBlock (pat : List Char) (hpat : pat ≠ [])
    (hcom : ',' ∉ pat)
    (hA : splitSafe pat
      "\n\ninit \x7b | ... theInputs |\n      inputs = theInputs\n      ^this.initOutputs(".data = true)
    (hrep : ∀ n, countSub pat (Nat.repr n).data = 0) (n : Nat) :
    countSub pat (initBlock n)
      = countSub pat
          "\n\ninit \x7b | ... theInputs |\n      inputs = theInputs\n      ^this.initOutputs(".data
        + countSub pat ", rate)\n  \x7d\n\n    ".data := by
  unfold initBlock
  rw [countSub_safe pat _ hA]
  rw [countSub_var_last pat hpat ", rate)\n  \x7d\n\n    ".data ','
    " rate)\n  \x7d\n\n    ".data rfl hcom]
  rw [hrep n]
  omega

set_option maxRecDepth 4000 in
theorem inputCheck_count_M (n : Nat) :
    countSub "MultiOutUGen".data (inputCheck n) = 0 := by
  rw [countSub_inputCheck "MultiOutUGen".data (by decide) (by decide) (by decide)
    (fun n => @countSub_repr "MultiOutUGen".data 'M' (by decide) (by decide) n) n]
  decide

set_option maxRecDepth 4000 in
theorem inputCheck_count_I (n : Nat) :
    countSub "initOutputs".data (inputCheck n) = 0 := by
  rw [countSub_inputCheck "initOutputs".data (by decide) (by decide) (by decide)
    (fun n => @countSub_repr "initOutputs".data 'i' (by decide) (by decide) n) n]
  decide

set_option maxRecDepth 4000 in
theorem inputCheck_count_C (n : Nat) :
    countSub "checkInputs".data (inputCheck n) = 1 := by
  rw [countSub_inputCheck "checkInputs".data (by decide) (by decide) (by decide)
    (fun n => @countSub_repr "checkInputs".data 'c' (by decide) (by decide) n) n]
  decide

set_option maxRecDepth 4000 in
theorem initBlock_count_M (n : Nat) :
    countSub "MultiOutUGen".data (initBlock n) = 0 := by
  rw [countSub_initBlock "MultiOutUGen".data (by decide) (by decide) (by decide)
    (fun n => @countSub_repr "MultiOutUGen".data 'M' (by decide) (by decide) n) n]
  decide

set_option maxRecDepth 4000 in
theorem initBlock_count_I (n : Nat) :
    countSub "initOutputs".data (initBlock n) = 1 := by
  rw [countSub_initBlock "initOutputs".data (by decide) (by decide) (by decide)
    (fun n => @countSub_repr "initOutputs".data 'i' (by decide) (by decide) n) n]
  decide

set_option maxRecDepth 4000 in
theorem initBlock_count_C (n : Nat) :
    countSub "checkInputs".data (initBlock n) = 0 := by
  rw [countSub_initBlock "checkInputs".data (by decide) (by decide) (by decide)
    (fun n => @countSub_repr "checkInputs".data 'c' (by decide) (by decide) n) n]
  decide

set_option maxRecDepth 20000 in
/-- Claim C5: the rendered class text inherits from `MultiOutUGen` and
carries the `initOutputs` override exactly when the output count exceeds
1; with at most one output the parent is `UGen` and neither marker
occurs (counts are exact under the hypothesis that the name and
parameter slots do not themselves contain the markers). -/
theorem claim5_parent (jd : JsonData) (np : Nat) (pI pP out : List Char)
    (hpI : get_parameter_list jd true = some pI)
    (hpP : get_parameter_list jd false = some pP)
    (hout : get_sc_class jd np = some out)
    (hcn5 : countSub "MultiOutUGen".data (get_class_name jd np) = 0)
    (hnm5 : countSub "MultiOutUGen".data (dsp_name jd) = 0)
    (hpI5 : countSub "MultiOutUGen".data pI = 0)
    (hpP5 : countSub "MultiOutUGen".data pP = 0)
    (hcn6 : countSub "initOutputs".data (get_class_name jd np) = 0)
    (hnm6 : countSub "initOutputs".data (dsp_name jd) = 0)
    (hpI6 : countSub "initOutputs".data pI = 0)
    (hpP6 : countSub "initOutputs".data pP = 0) :
    countSub "MultiOutUGen".data out = (if 1 < jd.outputs then 1 else 0)
    ∧ countSub "initOutputs".data out = (if 1 < jd.outputs then 1 else 0)
    ∧ (1 < jd.outputs → hasSub " : MultiOutUGen \x7b".data out
        ∧ hasSub (initBlock jd.outputs) out)
    ∧ (jd.outputs ≤ 1 → hasSub " : UGen \x7b".data out) := by
  rw [get_sc_class, hpI, hpP] at hout
  injection hout with hout
  by_cases ho : 1 < jd.outputs
  · by_cases hi : 0 < jd.inputs
    · rw [if_pos ho, if_pos ho, if_pos hi] at hout
      subst hout
      refine ⟨?_, ?_, fun _ => ⟨?_, ?_⟩, fun hle => absurd ho (by omega)⟩
      · rw [if_pos ho]
        rw [countSub_scBody "MultiOutUGen".data (by decide) (by decide)
          (by decide) (by decide) (by decide) (by decide) (by decide)
          (by decide) (by decide) (by decide) (by decide) (by decide)
          (by decide) (by decide) (by decide)]
        rw [hcn5, hnm5, hpI5, hpP5, inputCheck_count_M, initBlock_count_M]
        decide
      · rw [if_pos ho]
        rw [countSub_scBody "initOutputs".data (by decide) (by decide)
          (by decide) (by decide) (by decide) (by decide) (by decide)
          (by decide) (by decide) (by decide) (by decide) (by decide)
          (by decide) (by decide) (by decide)]
        rw [hcn6, hnm6, hpI6, hpP6, inputCheck_count_I, initBlock_count_I]
        decide
      · refine ⟨"\n".data ++ get_class_name jd np,
          "\n\n    *ar\x7b|".data
          ++ pI
          ++ "|\n      ^this.multiNew('audio', ".data
          ++ pP
          ++ ")\n    \x7d\n\n    *kr\x7b|".data
          ++ pI
          ++ "|\n      ^this.multiNew('control', ".data
          ++ pP
          ++ ")\n    \x7d\n\n    name \x7b ^\"".data
          ++ dsp_name jd
          ++ "\" \x7d\n\n    info \x7b ^\"Generated with Faust\" \x7d\n    ".data
          ++ inputCheck jd.inputs
          ++ "\n    ".data
          ++ initBlock jd.outputs
          ++ "\n\x7d\n".data, ?_⟩
        simp [scBody, List.append_assoc]
      · refine ⟨"\n".data
          ++ get_class_name jd np
          ++ " : ".data
          ++ "MultiOutUGen".data
          ++ " \x7b\n\n    *ar\x7b|".data
          ++ pI
          ++ "|\n      ^this.multiNew('audio', ".data
          ++ pP
          ++ ")\n    \x7d\n\n    *kr\x7b|".data
          ++ pI
          ++ "|\n      ^this.multiNew('control', ".data
          ++ pP
          ++ ")\n    \x7d\n\n    name \x7b ^\"".data
          ++ dsp_name jd
          ++ "\" \x7d\n\n    info \x7b ^\"Generated with Faust\" \x7d\n    ".data
          ++ inputCheck jd.inputs
          ++ "\n    ".data, "\n\x7d\n".data, ?_⟩
        simp [scBody, List.append_assoc]
    · rw [if_pos ho, if_pos ho, if_neg hi] at hout
      subst hout
      refine ⟨?_, ?_, fun _ => ⟨?_, ?_⟩, fun hle => absurd ho (by omega)⟩
      · rw [if_pos ho]
        rw [countSub_scBody "MultiOutUGen".data (by decide) (by decide)
          (by decide) (by decide) (by decide) (by decide) (by decide)
          (by decide) (by decide) (by decide) (by decide) (by decide)
          (by decide) (by decide) (by decide)]
        rw [hcn5, hnm5, hpI5, hpP5, initBlock_count_M]
        decide
      · rw [if_pos ho]
        rw [countSub_scBody "initOutputs".data (by decide) (by decide)
          (by decide) (by decide) (by decide) (by decide) (by decide)
          (by decide) (by decide) (by decide) (by decide) (by decide)
          (by decide) (by decide) (by decide)]
        rw [hcn6, hnm6, hpI6, hpP6, initBlock_count_I]
        decide
      · refine ⟨"\n".data ++ get_class_name jd np,
          "\n\n    *ar\x7b|".data
          ++ pI
          ++ "|\n      ^this.multiNew('audio', ".data
          ++ pP
          ++ ")\n    \x7d\n\n    *kr\x7b|".data
          ++ pI
          ++ "|\n      ^this.multiNew('control', ".data
          ++ pP
          ++ ")\n    \x7d\n\n    name \x7b ^\"".data
          ++ dsp_name jd
          ++ "\" \x7d\n\n    info \x7b ^\"Generated with Faust\" \x7d\n    ".data
          ++ ([] : List Char)
          ++ "\n    ".data
          ++ initBlock jd.outputs
          ++ "\n\x7d\n".data, ?_⟩
        simp [scBody, List.append_assoc]
      · refine ⟨"\n".data
          ++ get_class_name jd np
          ++ " : ".data
          ++ "MultiOutUGen".data
          ++ " \x7b\n\n    *ar\x7b|".data
          ++ pI
          ++ "|\n      ^this.multiNew('audio', ".data
          ++ pP
          ++ ")\n    \x7d\n\n    *kr\x7b|".data
          ++ pI
          ++ "|\n      ^this.multiNew('control', ".data
          ++ pP
          ++ ")\n    \x7d\n\n    name \x7b ^\"".data
          ++ dsp_name jd
          ++ "\" \x7d\n\n    info \x7b ^\"Generated with Faust\" \x7d\n    ".data
          ++ ([] : List Char)
          ++ "\n    ".data, "\n\x7d\n".data, ?_⟩
        simp [scBody, List.append_assoc]
  · by_cases hi : 0 < jd.inputs
    · rw [if_neg ho, if_neg ho, if_pos hi] at hout
      subst hout
      refine ⟨?_, ?_, fun hgt => absurd hgt ho, fun _ => ?_⟩
      · rw [if_neg ho]
        rw [countSub_scBody "MultiOutUGen".data (by decide) (by decide)
          (by decide) (by decide) (by decide) (by decide) (by decide)
          (by decide) (by decide) (by decide) (by decide) (by decide)
          (by decide) (by decide) (by decide)]
        rw [hcn5, hnm5, hpI5, hpP5, inputCheck_count_M]
        decide
      · rw [if_neg ho]
        rw [countSub_scBody "initOutputs".data (by decide) (by decide)
          (by decide) (by decide) (by decide) (by decide) (by decide)
          (by decide) (by decide) (by decide) (by decide) (by decide)
          (by decide) (by decide) (by decide)]
        rw [hcn6, hnm6, hpI6, hpP6, inputCheck_count_I]
        decide
      · refine ⟨"\n".data ++ get_class_name jd np,
          "\n\n    *ar\x7b|".data
          ++ pI
          ++ "|\n      ^this.multiNew('audio', ".data
          ++ pP
          ++ ")\n    \x7d\n\n    *kr\x7b|".data
          ++ pI
          ++ "|\n      ^this.multiNew('control', ".data
          ++ pP
          ++ ")\n    \x7d\n\n    name \x7b ^\"".data
          ++ dsp_name jd
          ++ "\" \x7d\n\n    info \x7b ^\"Generated with Faust\" \x7d\n    ".data
          ++ inputCheck jd.inputs
          ++ "\n    ".data
          ++ ([] : List Char)
          ++ "\n\x7d\n".data, ?_⟩
        simp [scBody, List.append_assoc]
    · rw [if_neg ho, if_neg ho, if_neg hi] at hout
      subst hout
      refine ⟨?_, ?_, fun hgt => absurd hgt ho, fun _ => ?_⟩
      · rw [if_neg ho]
        rw [countSub_scBody "MultiOutUGen".data (by decide) (by decide)
          (by decide) (by decide) (by decide) (by decide) (by decide)
          (by decide) (by decide) (by decide) (by decide) (by decide)
          (by decide) (by decide) (by decide)]
        rw [hcn5, hnm5, hpI5, hpP5]
        decide
      · rw [if_neg ho]
        rw [countSub_scBody "initOutputs".data (by decide) (by decide)
          (by decide) (by decide) (by decide) (by decide) (by decide)
          (by decide) (by decide) (by decide) (by decide) (by decide)
          (by decide) (by decide) (by decide)]
        rw [hcn6, hnm6, hpI6, hpP6]
        decide
      · refine ⟨"\n".data ++ get_class_name jd np,
          "\n\n    *ar\x7b|".data
          ++ pI
          ++ "|\n      ^this.multiNew('audio', ".data
          ++ pP
          ++ ")\n    \x7d\n\n    *kr\x7b|".data
          ++ pI
          ++ "|\n      ^this.multiNew('control', ".data
          ++ pP
          ++ ")\n    \x7d\n\n    name \x7b ^\"".data
          ++ dsp_name jd
          ++ "\" \x7d\n\n    info \x7b ^\"Generated with Faust\" \x7d\n    ".data
          ++ ([] : List Char)
          ++ "\n    ".data
          ++ ([] : List Char)
          ++ "\n\x7d\n".data, ?_⟩
        simp [scBody, List.append_assoc]

set_option maxRecDepth 10000 in
/-- Claim C5 witness: a two-output record renders a `MultiOutUGen`
class with exactly one `initOutputs` override. -/
theorem claim5_witness :
    get_sc_class ⟨"demo".data, 2, 2, [⟨some []⟩]⟩ 1
      = some "\nDemo : MultiOutUGen \x7b\n\n    *ar\x7b|in0, in1|\n      ^this.multiNew('audio', in0, in1)\n    \x7d\n\n    *kr\x7b|in0, in1|\n      ^this.multiNew('control', in0, in1)\n    \x7d\n\n    name \x7b ^\"Demo\" \x7d\n\n    info \x7b ^\"Generated with Faust\" \x7d\n    \n\ncheckInputs \x7b\n    if (rate == 'audio', \x7b\n      2.do(\x7b|i|\n        if (inputs.at(i).rate != 'audio', \x7b\n          ^(\" input at index \" + i + \"(\" + inputs.at(i) +\n            \") is not audio rate\");\n        \x7d);\n      \x7d);\n    \x7d);\n    ^this.checkValidInputs\n  \x7d\n\n\n    \n\ninit \x7b | ... theInputs |\n      inputs = theInputs\n      ^this.initOutputs(2, rate)\n  \x7d\n\n    \n\x7d\n".data
    ∧ countSub "MultiOutUGen".data "\nDemo : MultiOutUGen \x7b\n\n    *ar\x7b|in0, in1|\n      ^this.multiNew('audio', in0, in1)\n    \x7d\n\n    *kr\x7b|in0, in1|\n      ^this.multiNew('control', in0, in1)\n    \x7d\n\n    name \x7b ^\"Demo\" \x7d\n\n    info \x7b ^\"Generated with Faust\" \x7d\n    \n\ncheckInputs \x7b\n    if (rate == 'audio', \x7b\n      2.do(\x7b|i|\n        if (inputs.at(i).rate != 'audio', \x7b\n          ^(\" input at index \" + i + \"(\" + inputs.at(i) +\n            \") is not audio rate\");\n        \x7d);\n      \x7d);\n    \x7d);\n    ^this.checkValidInputs\n  \x7d\n\n\n    \n\ninit \x7b | ... theInputs |\n      inputs = theInputs\n      ^this.initOutputs(2, rate)\n  \x7d\n\n    \n\x7d\n".data = 1
    ∧ countSub "initOutputs".data "\nDemo : MultiOutUGen \x7b\n\n    *ar\x7b|in0, in1|\n      ^this.multiNew('audio', in0, in1)\n    \x7d\n\n    *kr\x7b|in0, in1|\n      ^this.multiNew('control', in0, in1)\n    \x7d\n\n    name \x7b ^\"Demo\" \x7d\n\n    info \x7b ^\"Generated with Faust\" \x7d\n    \n\ncheckInputs \x7b\n    if (rate == 'audio', \x7b\n      2.do(\x7b|i|\n        if (inputs.at(i).rate != 'audio', \x7b\n          ^(\" input at index \" + i + \"(\" + inputs.at(i) +\n            \") is not audio rate\");\n        \x7d);\n      \x7d);\n    \x7d);\n    ^this.checkValidInputs\n  \x7d\n\n\n    \n\ninit \x7b | ... theInputs |\n      inputs = theInputs\n      ^this.initOutputs(2, rate)\n  \x7d\n\n    \n\x7d\n".data = 1 := by
  have h := claim5_parent ⟨"demo".data, 2, 2, [⟨some []⟩]⟩ 1
    "in0, in1".data "in0, in1".data
    "\nDemo : MultiOutUGen \x7b\n\n    *ar\x7b|in0, in1|\n      ^this.multiNew('audio', in0, in1)\n    \x7d\n\n    *kr\x7b|in0, in1|\n      ^this.multiNew('control', in0, in1)\n    \x7d\n\n    name \x7b ^\"Demo\" \x7d\n\n    info \x7b ^\"Generated with Faust\" \x7d\n    \n\ncheckInputs \x7b\n    if (rate == 'audio', \x7b\n      2.do(\x7b|i|\n        if (inputs.at(i).rate != 'audio', \x7b\n          ^(\" input at index \" + i + \"(\" + inputs.at(i) +\n            \") is not audio rate\");\n        \x7d);\n      \x7d);\n    \x7d);\n    ^this.checkValidInputs\n  \x7d\n\n\n    \n\ninit \x7b | ... theInputs |\n      inputs = theInputs\n      ^this.initOutputs(2, rate)\n  \x7d\n\n    \n\x7d\n".data
    (by decide) (by decide) (by decide) (by decide) (by decide) (by decide)
    (by decide) (by decide) (by decide) (by decide) (by decide)
  exact ⟨by decide, h.1.trans (by decide), h.2.1.trans (by decide)⟩
set_option maxRecDepth 20000 in
/-- Claim C6: the rendered class text contains exactly one
`checkInputs` rate-validation block when the input count is positive
and none when it is zero, and the block itself references the decimal
input count (counts are exact under the hypothesis that the name and
parameter slots do not themselves contain the marker). -/
theorem claim6_check (jd : JsonData) (np : Nat) (pI pP out : List Char)
    (hpI : get_parameter_list jd true = some pI)
    (hpP : get_parameter_list jd false = some pP)
    (hout : get_sc_class jd np = some out)
    (hcn : countSub "checkInputs".data (get_class_name jd np) = 0)
    (hnm : countSub "checkInputs".data (dsp_name jd) = 0)
    (hpIc : countSub "checkInputs".data pI = 0)
    (hpPc : countSub "checkInputs".data pP = 0) :
    countSub "checkInputs".data out = (if 0 < jd.inputs then 1 else 0)
    ∧ (0 < jd.inputs → hasSub (inputCheck jd.inputs) out
        ∧ hasSub (Nat.repr jd.inputs).data (inputCheck jd.inputs))
    ∧ (jd.inputs = 0 → countSub "checkInputs".data out = 0) := by
  rw [get_sc_class, hpI, hpP] at hout
  injection hout with hout
  by_cases ho : 1 < jd.outputs
  · by_cases hi : 0 < jd.inputs
    · rw [if_pos ho, if_pos ho, if_pos hi] at hout
      subst hout
      have hcount : countSub "checkInputs".data
          (scBody (get_class_name jd np) "MultiOutUGen".data pI pP (dsp_name jd)
            (inputCheck jd.inputs) (initBlock jd.outputs))
          = (if 0 < jd.inputs then 1 else 0) := by
        rw [countSub_scBody "checkInputs".data (by decide) (by decide)
          (by decide) (by decide) (by decide) (by decide) (by decide)
          (by decide) (by decide) (by decide) (by decide) (by decide)
          (by decide) (by decide) (by decide)]
        rw [hcn, hnm, hpIc, hpPc, inputCheck_count_C, initBlock_count_C]
        rw [if_pos hi]
        decide
      refine ⟨hcount, fun _ => ⟨?_, ?_⟩, fun hz => by rw [hcount, if_neg (by omega)]⟩
      · refine ⟨"\n".data
            ++ get_class_name jd np
            ++ " : ".data
            ++ "MultiOutUGen".data
            ++ " \x7b\n\n    *ar\x7b|".data
            ++ pI
            ++ "|\n      ^this.multiNew('audio', ".data
            ++ pP
            ++ ")\n    \x7d\n\n    *kr\x7b|".data
            ++ pI
            ++ "|\n      ^this.multiNew('control', ".data
            ++ pP
            ++ ")\n    \x7d\n\n    name \x7b ^\"".data
            ++ dsp_name jd
            ++ "\" \x7d\n\n    info \x7b ^\"Generated with Faust\" \x7d\n    ".data,
          "\n    ".data ++ (initBlock jd.outputs) ++ "\n\x7d\n".data, ?_⟩
        simp [scBody, List.append_assoc]
      · refine ⟨"\n\ncheckInputs \x7b\n    if (rate == 'audio', \x7b\n      ".data,
          ".do(\x7b|i|\n        if (inputs.at(i).rate != 'audio', \x7b\n          ^(\" input at index \" + i + \"(\" + inputs.at(i) +\n            \") is not audio rate\");\n        \x7d);\n      \x7d);\n    \x7d);\n    ^this.checkValidInputs\n  \x7d\n\n".data, ?_⟩
        simp [inputCheck, List.append_assoc]
    · rw [if_pos ho, if_pos ho, if_neg hi] at hout
      subst hout
      have hcount : countSub "checkInputs".data
          (scBody (get_class_name jd np) "MultiOutUGen".data pI pP (dsp_name jd)
            ([] : List Char) (initBlock jd.outputs))
          = (if 0 < jd.inputs then 1 else 0) := by
        rw [countSub_scBody "checkInputs".data (by decide) (by decide)
          (by decide) (by decide) (by decide) (by decide) (by decide)
          (by decide) (by decide) (by decide) (by decide) (by decide)
          (by decide) (by decide) (by decide)]
        rw [hcn, hnm, hpIc, hpPc, initBlock_count_C]
        rw [if_neg hi]
        decide
      exact ⟨hcount, fun hgt => absurd hgt hi,
        fun hz => by rw [hcount, if_neg (by omega)]⟩
  · by_cases hi : 0 < jd.inputs
    · rw [if_neg ho, if_neg ho, if_pos hi] at hout
      subst hout
      have hcount : countSub "checkInputs".data
          (scBody (get_class_name jd np) "UGen".data pI pP (dsp_name jd)
            (inputCheck jd.inputs) ([] : List Char))
          = (if 0 < jd.inputs then 1 else 0) := by
        rw [countSub_scBody "checkInputs".data (by decide) (by decide)
          (by decide) (by decide) (by decide) (by decide) (by decide)
          (by decide) (by decide) (by decide) (by decide) (by decide)
          (by decide) (by decide) (by decide)]
        rw [hcn, hnm, hpIc, hpPc, inputCheck_count_C]
        rw [if_pos hi]
        decide
      refine ⟨hcount, fun _ => ⟨?_, ?_⟩, fun hz => by rw [hcount, if_neg (by omega)]⟩
      · refine ⟨"\n".data
            ++ get_class_name jd np
            ++ " : ".data
            ++ "UGen".data
            ++ " \x7b\n\n    *ar\x7b|".data
            ++ pI
            ++ "|\n      ^this.multiNew('audio', ".data
            ++ pP
            ++ ")\n    \x7d\n\n    *kr\x7b|".data
            ++ pI
            ++ "|\n      ^this.multiNew('control', ".data
            ++ pP
            ++ ")\n    \x7d\n\n    name \x7b ^\"".data
            ++ dsp_name jd
            ++ "\" \x7d\n\n    info \x7b ^\"Generated with Faust\" \x7d\n    ".data,
          "\n    ".data ++ ([] : List Char) ++ "\n\x7d\n".data, ?_⟩
        simp [scBody, List.append_assoc]
      · refine ⟨"\n\ncheckInputs \x7b\n    if (rate == 'audio', \x7b\n      ".data,
          ".do(\x7b|i|\n        if (inputs.at(i).rate != 'audio', \x7b\n          ^(\" input at index \" + i + \"(\" + inputs.at(i) +\n            \") is not audio rate\");\n        \x7d);\n      \x7d);\n    \x7d);\n    ^this.checkValidInputs\n  \x7d\n\n".data, ?_⟩
        simp [inputCheck, List.append_assoc]
    · rw [if_neg ho, if_neg ho, if_neg hi] at hout
      subst hout
      have hcount : countSub "checkInputs".data
          (scBody (get_class_name jd np) "UGen".data pI pP (dsp_name jd)
            ([] : List Char) ([] : List Char))
          = (if 0 < jd.inputs then 1 else 0) := by
        rw [countSub_scBody "checkInputs".data (by decide) (by decide)
          (by decide) (by decide) (by decide) (by decide) (by decide)
          (by decide) (by decide) (by decide) (by decide) (by decide)
          (by decide) (by decide) (by decide)]
        rw [hcn, hnm, hpIc, hpPc]
        rw [if_neg hi]
        decide
      exact ⟨hcount, fun hgt => absurd hgt hi,
        fun hz => by rw [hcount, if_neg (by omega)]⟩

set_option maxRecDepth 10000 in
/-- Claim C6 witness: a three-input, one-output record renders a `UGen`
class with exactly one `checkInputs` block referencing the count 3. -/
theorem claim6_witness :
    get_sc_class ⟨"mix".data, 3, 1, [⟨some []⟩]⟩ 1
      = some "\nMix : UGen \x7b\n\n    *ar\x7b|in0, in1, in2|\n      ^this.multiNew('audio', in0, in1, in2)\n    \x7d\n\n    *kr\x7b|in0, in1, in2|\n      ^this.multiNew('control', in0, in1, in2)\n    \x7d\n\n    name \x7b ^\"Mix\" \x7d\n\n    info \x7b ^\"Generated with Faust\" \x7d\n    \n\ncheckInputs \x7b\n    if (rate == 'audio', \x7b\n      3.do(\x7b|i|\n        if (inputs.at(i).rate != 'audio', \x7b\n          ^(\" input at index \" + i + \"(\" + inputs.at(i) +\n            \") is not audio rate\");\n        \x7d);\n      \x7d);\n    \x7d);\n    ^this.checkValidInputs\n  \x7d\n\n\n    \n\x7d\n".data
    ∧ countSub "checkInputs".data "\nMix : UGen \x7b\n\n    *ar\x7b|in0, in1, in2|\n      ^this.multiNew('audio', in0, in1, in2)\n    \x7d\n\n    *kr\x7b|in0, in1, in2|\n      ^this.multiNew('control', in0, in1, in2)\n    \x7d\n\n    name \x7b ^\"Mix\" \x7d\n\n    info \x7b ^\"Generated with Faust\" \x7d\n    \n\ncheckInputs \x7b\n    if (rate == 'audio', \x7b\n      3.do(\x7b|i|\n        if (inputs.at(i).rate != 'audio', \x7b\n          ^(\" input at index \" + i + \"(\" + inputs.at(i) +\n            \") is not audio rate\");\n        \x7d);\n      \x7d);\n    \x7d);\n    ^this.checkValidInputs\n  \x7d\n\n\n    \n\x7d\n".data = 1
    ∧ hasSub (Nat.repr 3).data (inputCheck 3) := by
  have h := claim6_check ⟨"mix".data, 3, 1, [⟨some []⟩]⟩ 1
    "in0, in1, in2".data "in0, in1, in2".data
    "\nMix : UGen \x7b\n\n    *ar\x7b|in0, in1, in2|\n      ^this.multiNew('audio', in0, in1, in2)\n    \x7d\n\n    *kr\x7b|in0, in1, in2|\n      ^this.multiNew('control', in0, in1, in2)\n    \x7d\n\n    name \x7b ^\"Mix\" \x7d\n\n    info \x7b ^\"Generated with Faust\" \x7d\n    \n\ncheckInputs \x7b\n    if (rate == 'audio', \x7b\n      3.do(\x7b|i|\n        if (inputs.at(i).rate != 'audio', \x7b\n          ^(\" input at index \" + i + \"(\" + inputs.at(i) +\n            \") is not audio rate\");\n        \x7d);\n      \x7d);\n    \x7d);\n    ^this.checkValidInputs\n  \x7d\n\n\n    \n\x7d\n".data
    (by decide) (by decide) (by decide) (by decide) (by decide) (by decide)
    (by decide)
  exact ⟨by decide, h.1.trans (by decide), (h.2.1 (by decide)).2⟩
